import Mathlib

/-!
Shallow embedding of src/index.js of electron-localshortcut (fork with named
states). The module keeps a registry mapping a window (its webContents key)
to a bucket: a JS object mapping state names to arrays of shortcut entries.
JS objects are modelled as association lists preserving key insertion order
(the order for..in visits keys); JS arrays as Lean lists. The external
collaborators (the accelerator parser toKeyEvent from
keyboardevent-from-electron-accelerator, and the matcher equals from
keyboardevents-areequal) are taken as function parameters, since they are
out of scope per the spec. Callbacks are modelled as identifiers (Nat)
together with an environment mapping an identifier to the state mutation it
performs on its own state group, which lets re-entrant mutation during
dispatch be expressed without a recursive function type. Only the concrete
window paths are modelled (wc = win.webContents); the ANY_WINDOW sentinel
paths do the same registry bookkeeping and are not needed by the claims.
-/

namespace ElectronLocalshortcut

/-- A raw before-input-event payload as the dispatcher sees it: a type tag
(keyDown, keyUp or char), code and key, and optional modifier booleans.
A modifier that the raw event does not define is `none`. -/
structure RawInput where
  type : String
  code : String
  key : String
  alt : Option Bool
  shift : Option Bool
  meta : Option Bool
  control : Option Bool
deriving DecidableEq, Repr

/-- The canonical comparable key descriptor produced by the two
normalization paths. A field that was omitted (not defaulted) is `none`,
mirroring the JS object simply lacking the property. -/
structure NormalizedEvent where
  code : String
  key : String
  altKey : Option Bool := none
  shiftKey : Option Bool := none
  metaKey : Option Bool := none
  ctrlKey : Option Bool := none
deriving DecidableEq, Repr

/-- The function _normalizeEvent of src/index.js: copies code and key verbatim; copies each
of alt, shift, meta to the corresponding *Key field only when the raw event
defines it; maps control to ctrlKey the same way. -/
def _normalizeEvent (input : RawInput) : NormalizedEvent :=
  { code := input.code
    key := input.key
    altKey := input.alt
    shiftKey := input.shift
    metaKey := input.meta
    ctrlKey := input.control }

/-- A shortcut entry as pushed by register: the stamped descriptor, the
callback (modelled by an identifier) and the enabled flag. -/
structure Shortcut where
  eventStamp : NormalizedEvent
  callback : Nat
  enabled : Bool
deriving DecidableEq, Repr

/-- The matcher type: the external equals collaborator. -/
abbrev Matcher := NormalizedEvent → NormalizedEvent → Bool

/-- The type of the external toKeyEvent collaborator stamping an accelerator. -/
abbrev ToKeyEvent := String → NormalizedEvent

/-- JS object / Map read: value stored under the first matching key. -/
def getKey [BEq κ] (l : List (κ × α)) (k : κ) : Option α :=
  (l.find? (fun p => p.1 == k)).map (fun p => p.2)

/-- JS object / Map write: replace the value under an existing key in
place, or append a new key at the end (JS objects keep insertion order). -/
def setKey [BEq κ] : List (κ × α) → κ → α → List (κ × α)
  | [], k, v => [(k, v)]
  | (k', v') :: rest, k, v =>
      if k' == k then (k, v) :: rest else (k', v') :: setKey rest k v

/-- JS delete obj[k] / Map.delete: drop the first matching key. -/
def delKey [BEq κ] : List (κ × α) → κ → List (κ × α)
  | [], _ => []
  | (k', v') :: rest, k =>
      if k' == k then rest else (k', v') :: delKey rest k

/-- Object.keys: the keys in insertion order. -/
def keysOf (l : List (String × α)) : List String := l.map (fun p => p.1)

/-- A tiny universe of JS values, enough to state strict equality between
an array value and a number value. -/
inductive JsVal where
  | num : Int → JsVal
  | strArr : List String → JsVal
deriving DecidableEq

/-- JS strict equality (===) between values of this universe: values of
different runtime types are never strictly equal, and an object (array)
compares by identity, so two values are strictly equal here only when both
are the same number. An array is never === a number. -/
def jsStrictEq : JsVal → JsVal → Bool
  | JsVal.num a, JsVal.num b => a == b
  | _, _ => false

/-- The function _findShortcut of src/index.js: linear scan returning the index of the
first entry whose eventStamp the matcher accepts, or -1. The enabled flag
is not consulted. -/
def findShortcutAux (equals : Matcher) (event : NormalizedEvent) :
    Nat → List Shortcut → Int
  | _, [] => -1
  | i, s :: rest =>
      if equals s.eventStamp event then Int.ofNat i
      else findShortcutAux equals event (i + 1) rest

/-- The entry point of _findShortcut of src/index.js: the counter starts
at 0. -/
def _findShortcut (equals : Matcher) (event : NormalizedEvent)
    (shortcutsOfWindow : List Shortcut) : Int :=
  findShortcutAux equals event 0 shortcutsOfWindow

/-- The environment giving each callback identifier its effect on the state
group it is registered in (re-entrant register / unregister calls from
inside a callback mutate that array). -/
abbrev CallbackEnv := Nat → List Shortcut → List Shortcut

/-- The for..of loop body of _onBeforeInput, exactly as the JS array
iterator runs it: at step i the element at index i of the current array is
read; on the first entry that is enabled and whose stamp matches, its
callback runs (possibly mutating the array) and the handler returns at
once, so the loop never reads the array again after a mutation. Returns
the array after the call and the list of callbacks invoked. -/
def dispatchLoop (env : CallbackEnv) (equals : Matcher)
    (event : NormalizedEvent) (arr : List Shortcut) (i : Nat) :
    List Shortcut × List Nat :=
  if h : i < arr.length then
    let s := arr.get ⟨i, h⟩
    if s.enabled && equals s.eventStamp event then
      (env s.callback arr, [s.callback])
    else
      dispatchLoop env equals event arr (i + 1)
  else (arr, [])
termination_by arr.length - i

/-- The handler _onBeforeInput of src/index.js: the handler installed per state group.
Key-release events (type keyUp) are ignored; otherwise the normalized
event is scanned against the group. -/
def _onBeforeInput (env : CallbackEnv) (equals : Matcher)
    (shortcutsOfWindow : List Shortcut) (input : RawInput) :
    List Shortcut × List Nat :=
  if input.type == "keyUp" then (shortcutsOfWindow, [])
  else dispatchLoop env equals (_normalizeEvent input) shortcutsOfWindow 0

/-- Modelled from the spec: the scan of section 4.5 / the design note of
section 9 iterating an immutable snapshot of the entry sequence taken at
the start of the dispatch call. The snapshot list is walked structurally
while the live array is threaded separately for the callback to mutate. -/
def dispatchSnapGo (env : CallbackEnv) (equals : Matcher)
    (event : NormalizedEvent) (current : List Shortcut) :
    List Shortcut → List Shortcut × List Nat
  | [] => (current, [])
  | s :: rest =>
      if s.enabled && equals s.eventStamp event then
        (env s.callback current, [s.callback])
      else dispatchSnapGo env equals event current rest

/-- Modelled from the spec: dispatch over a snapshot of the group taken
when the dispatch call starts. -/
def dispatchSnapshot (env : CallbackEnv) (equals : Matcher)
    (event : NormalizedEvent) (arr : List Shortcut) :
    List Shortcut × List Nat :=
  dispatchSnapGo env equals event arr arr

/-- A window bucket: the JS object mapping state names to the arrays of
shortcut entries registered under each state. -/
abbrev Bucket := List (String × List Shortcut)

/-- The module state: windowsWithShortcuts (keyed by webContents identity,
modelled by Nat), together with observable listener bookkeeping: handlers
counts the before-input-event handlers currently attached per window, and
installCount counts every listener installation ever performed. -/
structure ModuleState where
  registry : List (Nat × Bucket)
  handlers : List (Nat × Nat)
  installCount : Nat
deriving DecidableEq, Repr

/-- The state before any registration. -/
def emptyState : ModuleState :=
  { registry := [], handlers := [], installCount := 0 }

/-- The function register of src/index.js, single-accelerator concrete-window path: locate
or create the bucket and the state group; when the group has zero entries,
attach a before-input-event handler for this group (observable here as a
handler count bump and an install tick); stamp the accelerator via the
external parser and push an entry with enabled = true on the end of the
group. _checkAccelerator only logs a diagnostic and changes no state. -/
def register (toKeyEvent : ToKeyEvent) (st : ModuleState) (win : Nat)
    (state acc : String) (cb : Nat) : ModuleState :=
  let bucket := (getKey st.registry win).getD []
  let group := (getKey bucket state).getD []
  let installing := group.length == 0
  let eventStamp := toKeyEvent acc
  let bucket' := setKey bucket state
    (group ++ [{ eventStamp := eventStamp, callback := cb, enabled := true }])
  { registry := setKey st.registry win bucket'
    handlers :=
      if installing then
        setKey st.handlers win ((getKey st.handlers win).getD 0 + 1)
      else st.handlers
    installCount := if installing then st.installCount + 1 else st.installCount }

/-- The function unregister of src/index.js, single-accelerator concrete-window path,
returning the thrown JS error as Except.error. When the window is
destroyed the call returns early. When the window has no bucket the code
only logs (the debug text says early return but there is no return
statement) and the next line reads a property of undefined, which throws a
TypeError. When the group exists, the first matcher-equal entry is spliced
out; if that empties the group, the listener for the group is removed and
the state key deleted; the bucket is then deleted from the registry only
if Object.keys(bucket) === 0, a strict equality between an array and a
number, which is false for every bucket. -/
def unregister (toKeyEvent : ToKeyEvent) (equals : Matcher)
    (st : ModuleState) (win : Nat) (winDestroyed : Bool)
    (state acc : String) : Except String ModuleState :=
  if winDestroyed then Except.ok st
  else
    match getKey st.registry win with
    | none =>
        Except.error "TypeError: cannot read property of undefined"
    | some bucket =>
        match getKey bucket state with
        | none => Except.ok st
        | some group =>
            let eventStamp := toKeyEvent acc
            let shortcutIdx := _findShortcut equals eventStamp group
            if shortcutIdx == -1 then Except.ok st
            else
              let group' := group.eraseIdx shortcutIdx.toNat
              if group'.length == 0 then
                let bucket' := delKey bucket state
                let registry' := setKey st.registry win bucket'
                let registry'' :=
                  if jsStrictEq (JsVal.strArr (keysOf bucket')) (JsVal.num 0)
                  then delKey registry' win else registry'
                Except.ok
                  { registry := registry''
                    handlers :=
                      setKey st.handlers win ((getKey st.handlers win).getD 0 - 1)
                    installCount := st.installCount }
              else
                Except.ok
                  { st with registry :=
                      setKey st.registry win (setKey bucket state group') }

/-- The function isRegistered of src/index.js: throws when the window has no bucket or the
bucket has no group for the state; otherwise reports whether _findShortcut
locates a matcher-equal entry. The enabled flag plays no part. -/
def isRegistered (toKeyEvent : ToKeyEvent) (equals : Matcher)
    (st : ModuleState) (win : Nat) (state acc : String) :
    Except String Bool :=
  match getKey st.registry win with
  | none => Except.error "No shortcuts registered for this window"
  | some bucket =>
      match getKey bucket state with
      | none => Except.error "No shortcuts registered for this state"
      | some group =>
          Except.ok (_findShortcut equals (toKeyEvent acc) group != -1)

/-- Set the enabled flag of every entry of every group of a bucket. -/
def setAllEnabled (b : Bool) (bucket : Bucket) : Bucket :=
  bucket.map (fun p => (p.1, p.2.map (fun s => { s with enabled := b })))

/-- The function disableAll of src/index.js: for..in over the bucket (zero iterations when
the window has no bucket, since for..in over undefined visits nothing),
setting enabled = false on every entry. -/
def disableAll (st : ModuleState) (win : Nat) : ModuleState :=
  match getKey st.registry win with
  | none => st
  | some bucket =>
      { st with registry := setKey st.registry win (setAllEnabled false bucket) }

/-- The function enableAll of src/index.js: same loop with enabled = true. -/
def enableAll (st : ModuleState) (win : Nat) : ModuleState :=
  match getKey st.registry win with
  | none => st
  | some bucket =>
      { st with registry := setKey st.registry win (setAllEnabled true bucket) }

/-- The function enableOnlyForState of src/index.js: for every group currState and every
entry of it, enabled becomes the result of state === currState. -/
def enableOnlyForState (st : ModuleState) (win : Nat) (state : String) :
    ModuleState :=
  match getKey st.registry win with
  | none => st
  | some bucket =>
      let bucket' := bucket.map (fun p =>
        (p.1, p.2.map (fun s => { s with enabled := state == p.1 })))
      { st with registry := setKey st.registry win bucket' }

/-- Observer: the group stored for a window and state, or [] when the
window or the state has no group. -/
def groupOf (st : ModuleState) (win : Nat) (state : String) :
    List Shortcut :=
  (getKey ((getKey st.registry win).getD []) state).getD []

/-- A concrete stand-in for the external accelerator parser, used to
evaluate the model on closed inputs: it stamps the accelerator text into
both code and key. -/
def tke0 : ToKeyEvent := fun s => { code := s, key := s }

/-- A concrete stand-in for the external matcher: structural equality of
descriptors. -/
def keq0 : Matcher := fun a b => a == b

/-- A concrete callback environment whose callbacks do nothing. -/
def env0 : CallbackEnv := fun _ g => g

theorem getKey_setKey_self [BEq κ] [LawfulBEq κ] (l : List (κ × α))
    (k : κ) (v : α) : getKey (setKey l k v) k = some v := by
  induction l with
  | nil => simp [setKey, getKey, List.find?]
  | cons p rest ih =>
      obtain ⟨k', v'⟩ := p
      by_cases h : k' == k
      · simp [setKey, h, getKey, List.find?]
      · simpa [setKey, h, getKey, List.find?] using ih

theorem getKey_map_val [BEq κ] [LawfulBEq κ] (l : List (κ × α))
    (f : κ → α → β) (k : κ) :
    getKey (l.map (fun p => (p.1, f p.1 p.2))) k = (getKey l k).map (f k) := by
  induction l with
  | nil => simp [getKey, List.find?]
  | cons p rest ih =>
      obtain ⟨k', v'⟩ := p
      by_cases h : k' == k
      · have hk : k' = k := eq_of_beq h
        subst hk
        simp [getKey, List.find?, h]
      · simpa [getKey, List.find?, h] using ih

theorem findShortcutAux_map_enabled (equals : Matcher)
    (event : NormalizedEvent) (b : Bool) (g : List Shortcut) :
    ∀ i, findShortcutAux equals event i
        (g.map (fun s => { s with enabled := b })) =
      findShortcutAux equals event i g := by
  induction g with
  | nil => intro i; rfl
  | cons s rest ih =>
      intro i
      by_cases h : equals s.eventStamp event
      · simp [findShortcutAux, h]
      · simp [findShortcutAux, h, ih]

theorem dispatchLoop_eq_drop (env : CallbackEnv) (equals : Matcher)
    (event : NormalizedEvent) (arr : List Shortcut) (i : Nat) :
    dispatchLoop env equals event arr i =
      dispatchSnapGo env equals event arr (arr.drop i) := by
  rw [dispatchLoop]
  by_cases h : i < arr.length
  · rw [dif_pos h]
    have hdrop : arr.drop i = arr.get ⟨i, h⟩ :: arr.drop (i + 1) := by
      rw [List.drop_eq_getElem_cons h]
      simp [List.get_eq_getElem]
    rw [hdrop, dispatchSnapGo]
    by_cases hm : (arr.get ⟨i, h⟩).enabled &&
        equals (arr.get ⟨i, h⟩).eventStamp event
    · simp only [hm, if_true]
    · simp only [hm, if_false]
      exact dispatchLoop_eq_drop env equals event arr (i + 1)
  · rw [dif_neg h]
    rw [List.drop_eq_nil_of_le (Nat.le_of_not_lt h)]
    rfl
termination_by arr.length - i

theorem dispatchSnapGo_fired (env : CallbackEnv) (equals : Matcher)
    (event : NormalizedEvent) (current : List Shortcut)
    (l : List Shortcut) :
    (dispatchSnapGo env equals event current l).2 =
      match l.find? (fun s => s.enabled && equals s.eventStamp event) with
      | some s => [s.callback]
      | none => [] := by
  induction l with
  | nil => rfl
  | cons s rest ih =>
      by_cases h : s.enabled && equals s.eventStamp event
      · simp [dispatchSnapGo, h, List.find?_cons]
      · simp [dispatchSnapGo, h, List.find?_cons, ih]

theorem findShortcutAux_ne_neg_one (equals : Matcher)
    (event : NormalizedEvent) (g : List Shortcut) :
    ∀ i, (findShortcutAux equals event i g != -1) =
      g.any (fun s => equals s.eventStamp event) := by
  induction g with
  | nil => intro i; rfl
  | cons s rest ih =>
      intro i
      by_cases h : equals s.eventStamp event
      · have hne : (Int.ofNat i) ≠ -1 := by
          rw [Int.ofNat_eq_natCast]
          omega
        simp [findShortcutAux, h, List.any_cons, hne]
      · simp [findShortcutAux, h, List.any_cons, ih]

theorem isRegistered_eq_any (toKeyEvent : ToKeyEvent) (equals : Matcher)
    (st : ModuleState) (win : Nat) (state acc : String)
    (bucket : Bucket) (g : List Shortcut)
    (hb : getKey st.registry win = some bucket)
    (hg : getKey bucket state = some g) :
    isRegistered toKeyEvent equals st win state acc =
      Except.ok (g.any (fun s => equals s.eventStamp (toKeyEvent acc))) := by
  simp only [isRegistered, hb, hg, _findShortcut, findShortcutAux_ne_neg_one]

/-- C1: a key-release event (type keyUp) delivered to the installed
handler fires no callback and changes nothing; any other event is
normalized and the group is scanned in insertion order, firing exactly the
callback of the first entry that is enabled and whose stamp the matcher
accepts (none when no enabled entry matches), and at most one callback
fires per event. -/
theorem onBeforeInput_first_enabled_match (env : CallbackEnv)
    (equals : Matcher) (group : List Shortcut) (input : RawInput) :
    (input.type = "keyUp" → _onBeforeInput env equals group input = (group, [])) ∧
    (input.type ≠ "keyUp" →
      (_onBeforeInput env equals group input).2 =
        match group.find? (fun s =>
            s.enabled && equals s.eventStamp (_normalizeEvent input)) with
        | some s => [s.callback]
        | none => []) ∧
    (_onBeforeInput env equals group input).2.length ≤ 1 := by
  refine ⟨?_, ?_, ?_⟩
  · intro h
    simp [_onBeforeInput, h]
  · intro h
    rw [_onBeforeInput, if_neg (by simpa using h), dispatchLoop_eq_drop,
      List.drop_zero, dispatchSnapGo_fired]
  · rw [_onBeforeInput]
    by_cases h : input.type == "keyUp"
    · simp [h]
    · rw [if_neg h, dispatchLoop_eq_drop, List.drop_zero, dispatchSnapGo_fired]
      cases group.find? (fun s =>
          s.enabled && equals s.eventStamp (_normalizeEvent input)) <;> simp

/-- A raw key-release event used to evaluate the model. -/
def inUp0 : RawInput :=
  { type := "keyUp", code := "A", key := "A",
    alt := none, shift := none, meta := none, control := none }

/-- A raw key-press event whose normalization coincides with the stamp the
fixture parser yields for the accelerator text A. -/
def inDown0 : RawInput :=
  { type := "keyDown", code := "A", key := "A",
    alt := none, shift := none, meta := none, control := none }

/-- A one-entry enabled state group matching inDown0. -/
def g0 : List Shortcut :=
  [{ eventStamp := tke0 "A", callback := 7, enabled := true }]

theorem onBeforeInput_first_enabled_match_witness :
    _onBeforeInput env0 keq0 g0 inUp0 = (g0, []) ∧
    (_onBeforeInput env0 keq0 g0 inDown0).2 = [7] := by
  constructor
  · exact (onBeforeInput_first_enabled_match env0 keq0 g0 inUp0).1 rfl
  · rw [(onBeforeInput_first_enabled_match env0 keq0 g0 inDown0).2.1
      (by decide)]
    rfl

/-- C5: the installed handler is extensionally the snapshot dispatcher of
the spec: it behaves exactly as if it iterated an immutable snapshot of the
entry sequence taken when the dispatch call starts, because the scan stops
at the moment the first matching callback runs, so a callback mutating the
group (re-entrant register or unregister) can never affect the in-progress
scan, and subsequent dispatches see precisely the group the callback
left. -/
theorem onBeforeInput_eq_snapshot_dispatch (env : CallbackEnv)
    (equals : Matcher) (group : List Shortcut) (input : RawInput) :
    _onBeforeInput env equals group input =
      if input.type == "keyUp" then (group, [])
      else dispatchSnapshot env equals (_normalizeEvent input) group := by
  rw [_onBeforeInput]
  by_cases h : input.type == "keyUp"
  · simp [h]
  · rw [if_neg h, if_neg h, dispatchLoop_eq_drop, List.drop_zero,
      dispatchSnapshot]

/-- C2: calling unregister for a window that never had a shortcut
registered does not return silently: the code only logs where it meant to
return early, then reads a property of undefined, so the call throws a
TypeError instead of being a non-fatal no-op. -/
theorem unregister_missing_window_throws :
    unregister tke0 keq0 emptyState 0 false "s" "A" =
      Except.error "TypeError: cannot read property of undefined" := rfl

/-- C3: removing the last entry of the last state group deletes the group
from the bucket and detaches the listener, but the bucket itself is never
deleted from the registry, because the code compares the Object.keys array
itself (not its length) to the number 0 with strict equality, which is
always false: after register then unregister of a single shortcut the
registry still holds the window with an empty bucket. -/
theorem unregister_last_entry_keeps_empty_bucket :
    unregister tke0 keq0 (register tke0 emptyState 0 "s" "A" 0) 0 false
        "s" "A" =
      Except.ok
        { registry := [(0, [])], handlers := [(0, 0)], installCount := 1 } :=
  rfl

/-- C4 counterexample: a bucket already holding an entry under state a
(one listener installed) receives a registration under a new state b, and
a second listener is installed, though the bucket had entries before. -/
theorem register_second_state_installs_listener_cex :
    (register tke0 emptyState 0 "a" "A" 0).installCount = 1 ∧
    groupOf (register tke0 emptyState 0 "a" "A" 0) 0 "a" ≠ [] ∧
    (register tke0 (register tke0 emptyState 0 "a" "A" 0) 0 "b" "B"
        1).installCount = 2 := by
  refine ⟨rfl, ?_, rfl⟩
  decide

/-- C4 as amended: register installs a new raw-key-event listener exactly
when the target (window, state) group had zero entries before the call —
one listener per state group — not only when the whole bucket had zero
entries across all its states. -/
theorem register_installs_iff_group_empty (toKeyEvent : ToKeyEvent)
    (st : ModuleState) (win : Nat) (state acc : String) (cb : Nat) :
    (register toKeyEvent st win state acc cb).installCount =
      st.installCount +
        (if (groupOf st win state).length = 0 then 1 else 0) := by
  simp only [register, groupOf]
  by_cases h :
      ((getKey ((getKey st.registry win).getD []) state).getD []).length = 0
  · simp [h]
  · simp [h]

theorem getKey_setAllEnabled (b : Bool) (bucket : Bucket) (t : String) :
    getKey (setAllEnabled b bucket) t =
      (getKey bucket t).map
        (fun g => g.map (fun e => { e with enabled := b })) := by
  induction bucket with
  | nil => rfl
  | cons p rest ih =>
      obtain ⟨k, grp⟩ := p
      by_cases h : k == t
      · simp [setAllEnabled, getKey, List.find?, h]
      · simpa [setAllEnabled, getKey, List.find?, h] using ih

theorem getKey_enableBucketMap (s : String) (bucket : Bucket) (t : String) :
    getKey (bucket.map (fun p =>
        (p.1, p.2.map (fun e => { e with enabled := s == p.1 })))) t =
      (getKey bucket t).map
        (fun g => g.map (fun e => { e with enabled := s == t })) := by
  induction bucket with
  | nil => rfl
  | cons p rest ih =>
      obtain ⟨k, grp⟩ := p
      by_cases h : k == t
      · have hk : k = t := eq_of_beq h
        subst hk
        simp [getKey, List.find?, h]
      · simpa [getKey, List.find?, h] using ih

/-- C8: register with a single accelerator appends exactly one entry, with
enabled = true, at the end of the (window, state) group, whatever the
group held before — in particular a duplicate of an accelerator already
present becomes a second entry, nothing is replaced or deduplicated. -/
theorem register_appends_single_enabled_entry (toKeyEvent : ToKeyEvent)
    (st : ModuleState) (win : Nat) (state acc : String) (cb : Nat) :
    groupOf (register toKeyEvent st win state acc cb) win state =
      groupOf st win state ++
        [{ eventStamp := toKeyEvent acc, callback := cb, enabled := true }] := by
  simp [register, groupOf, getKey_setKey_self]

/-- C6: after enableOnlyForState for state s, every entry of every group t
of the window bucket carries enabled = (s == t): the entries of group s
are all enabled and the entries of every other group are all disabled, so
a key event dispatched to the handler of a group of another state fires no
callback. -/
theorem enableOnlyForState_sets_flags_by_state (st : ModuleState)
    (win : Nat) (s t : String) (g : List Shortcut)
    (hg : getKey ((getKey (enableOnlyForState st win s).registry win).getD [])
        t = some g) :
    (∀ e ∈ g, e.enabled = (s == t)) ∧
    ((s == t) = false → ∀ (env : CallbackEnv) (equals : Matcher)
        (input : RawInput), (_onBeforeInput env equals g input).2 = []) := by
  have hmem : ∀ e ∈ g, e.enabled = (s == t) := by
    cases hb : getKey st.registry win with
    | none =>
        simp only [enableOnlyForState, hb] at hg
        simp [getKey, List.find?] at hg
    | some bucket =>
        simp only [enableOnlyForState, hb] at hg
        rw [getKey_setKey_self, Option.getD_some, getKey_enableBucketMap] at hg
        cases hq : getKey bucket t with
        | none => rw [hq] at hg; simp at hg
        | some g0 =>
            rw [hq] at hg
            simp only [Option.map_some', Option.some_inj] at hg
            subst hg
            intro e he
            obtain ⟨e0, _, rfl⟩ := List.mem_map.mp he
            rfl
  refine ⟨hmem, ?_⟩
  intro hf env equals input
  rw [_onBeforeInput]
  by_cases hk : input.type == "keyUp"
  · rw [if_pos hk]
  · rw [if_neg hk, dispatchLoop_eq_drop, List.drop_zero, dispatchSnapGo_fired]
    have hnone : g.find? (fun e =>
        e.enabled && equals e.eventStamp (_normalizeEvent input)) = none := by
      rw [List.find?_eq_none]
      intro e he
      simp [hmem e he, hf]
    rw [hnone]

/-- The fixture state for evaluating enableOnlyForState: one shortcut A
under state normal and one shortcut B under state edit, then the edit
state made the only enabled one. -/
def st6 : ModuleState :=
  enableOnlyForState
    (register tke0 (register tke0 emptyState 0 "normal" "A" 0) 0 "edit" "B" 1)
    0 "edit"

/-- The group stored under state normal inside st6: its entry is
disabled. -/
def gNormal6 : List Shortcut :=
  [{ eventStamp := tke0 "A", callback := 0, enabled := false }]

/-- The single entry of gNormal6. -/
def eNormal6 : Shortcut :=
  { eventStamp := tke0 "A", callback := 0, enabled := false }

theorem enableOnlyForState_sets_flags_by_state_witness :
    eNormal6.enabled = ("edit" == "normal") ∧
    (_onBeforeInput env0 keq0 gNormal6 inDown0).2 = [] := by
  have h := enableOnlyForState_sets_flags_by_state
    (register tke0 (register tke0 emptyState 0 "normal" "A" 0) 0 "edit" "B" 1)
    0 "edit" "normal" gNormal6 rfl
  exact ⟨h.1 eNormal6 (by decide), h.2 (by decide) env0 keq0 inDown0⟩

/-- C7: isRegistered signals a synchronous error both when the window has
no bucket at all and when the bucket has no group under the queried state;
when a group exists it returns the boolean saying whether some entry of
the group carries a matcher-equal descriptor. -/
theorem isRegistered_error_or_lookup (toKeyEvent : ToKeyEvent)
    (equals : Matcher) (st : ModuleState) (win : Nat) (state acc : String) :
    (getKey st.registry win = none →
      isRegistered toKeyEvent equals st win state acc =
        Except.error "No shortcuts registered for this window") ∧
    (∀ bucket, getKey st.registry win = some bucket →
      getKey bucket state = none →
      isRegistered toKeyEvent equals st win state acc =
        Except.error "No shortcuts registered for this state") ∧
    (∀ bucket g, getKey st.registry win = some bucket →
      getKey bucket state = some g →
      isRegistered toKeyEvent equals st win state acc =
        Except.ok (g.any (fun s => equals s.eventStamp (toKeyEvent acc)))) := by
  refine ⟨?_, ?_, ?_⟩
  · intro h
    simp [isRegistered, h]
  · intro bucket hb hg
    simp [isRegistered, hb, hg]
  · intro bucket g hb hg
    exact isRegistered_eq_any toKeyEvent equals st win state acc bucket g hb hg

/-- The fixture state for evaluating isRegistered: one shortcut A under
state s of window 0. -/
def st7 : ModuleState := register tke0 emptyState 0 "s" "A" 0

/-- The bucket st7 stores for window 0. -/
def bucket7 : Bucket :=
  [("s", [{ eventStamp := tke0 "A", callback := 0, enabled := true }])]

/-- The group st7 stores under state s. -/
def g7 : List Shortcut :=
  [{ eventStamp := tke0 "A", callback := 0, enabled := true }]

theorem isRegistered_error_or_lookup_witness :
    isRegistered tke0 keq0 emptyState 0 "s" "A" =
      Except.error "No shortcuts registered for this window" ∧
    isRegistered tke0 keq0 st7 0 "t" "A" =
      Except.error "No shortcuts registered for this state" ∧
    isRegistered tke0 keq0 st7 0 "s" "A" = Except.ok true := by
  refine ⟨?_, ?_, ?_⟩
  · exact (isRegistered_error_or_lookup tke0 keq0 emptyState 0 "s" "A").1 rfl
  · exact (isRegistered_error_or_lookup tke0 keq0 st7 0 "t" "A").2.1
      bucket7 rfl rfl
  · rw [(isRegistered_error_or_lookup tke0 keq0 st7 0 "s" "A").2.2
      bucket7 g7 rfl rfl]
    rfl

/-- C9: on a window that never had a shortcut registered (no bucket), the
three enable and disable operations return with the state untouched and
raise nothing, in contrast with isRegistered. -/
theorem unregistered_window_enable_ops_noop (st : ModuleState) (win : Nat)
    (state : String) (h : getKey st.registry win = none) :
    disableAll st win = st ∧ enableAll st win = st ∧
      enableOnlyForState st win state = st := by
  refine ⟨?_, ?_, ?_⟩ <;> simp [disableAll, enableAll, enableOnlyForState, h]

theorem unregistered_window_enable_ops_noop_witness :
    disableAll emptyState 0 = emptyState ∧
    enableAll emptyState 0 = emptyState ∧
    enableOnlyForState emptyState 0 "s" = emptyState :=
  unregistered_window_enable_ops_noop emptyState 0 "s" rfl

/-- C10: after disableAll every entry of the queried group is disabled,
yet isRegistered answers exactly as before the disableAll: the lookup
never consults the enabled flag, so registered and dispatchable are
distinct predicates. -/
theorem isRegistered_ignores_enabled_flags (toKeyEvent : ToKeyEvent)
    (equals : Matcher) (st : ModuleState) (win : Nat) (state acc : String) :
    (∀ e ∈ groupOf (disableAll st win) win state, e.enabled = false) ∧
    isRegistered toKeyEvent equals (disableAll st win) win state acc =
      isRegistered toKeyEvent equals st win state acc := by
  cases hb : getKey st.registry win with
  | none =>
      constructor
      · intro e he
        simp only [disableAll, groupOf, hb] at he
        simp [getKey, List.find?] at he
      · simp [disableAll, hb]
  | some bucket =>
      have hreg : getKey (disableAll st win).registry win =
          some (setAllEnabled false bucket) := by
        simp [disableAll, hb, getKey_setKey_self]
      constructor
      · intro e he
        rw [groupOf, hreg, Option.getD_some, getKey_setAllEnabled] at he
        cases hq : getKey bucket state with
        | none => rw [hq] at he; simp at he
        | some g0 =>
            rw [hq] at he
            simp only [Option.map_some', Option.getD_some] at he
            obtain ⟨e0, _, rfl⟩ := List.mem_map.mp he
            rfl
      · cases hq : getKey bucket state with
        | none =>
            have hq' : getKey (setAllEnabled false bucket) state = none := by
              rw [getKey_setAllEnabled, hq]
              rfl
            simp [isRegistered, hb, hq, hreg, hq']
        | some g0 =>
            have hq' : getKey (setAllEnabled false bucket) state =
                some (g0.map (fun e => { e with enabled := false })) := by
              rw [getKey_setAllEnabled, hq]
              rfl
            rw [isRegistered_eq_any toKeyEvent equals (disableAll st win) win
                state acc (setAllEnabled false bucket)
                (g0.map (fun e => { e with enabled := false })) hreg hq',
              isRegistered_eq_any toKeyEvent equals st win state acc bucket
                g0 hb hq]
            simp only [List.any_map]
            congr 1

/-- The disabled entry stored under state s of window 0 after disableAll
on the fixture state st7. -/
def eDis10 : Shortcut :=
  { eventStamp := tke0 "A", callback := 0, enabled := false }

theorem isRegistered_ignores_enabled_flags_witness :
    eDis10.enabled = false ∧
    isRegistered tke0 keq0 (disableAll st7 0) 0 "s" "A" =
      isRegistered tke0 keq0 st7 0 "s" "A" := by
  have h := isRegistered_ignores_enabled_flags tke0 keq0 st7 0 "s" "A"
  exact ⟨h.1 eDis10 (by decide), h.2⟩

end ElectronLocalshortcut
